import Mathlib

/-!
Verification of the audmon audio-level-meter pipeline (cmd/audmon.go).

The audio callback reduces each capture-period sample buffer to its peak
value, scales it to a volume in [0,1] by `min((peak/235)^2, 1)`, throttles
the displayed volume by a fixed step of 0.05 per call, and resizes the
bar filler to `floor((1 - volumeDisplayed) * barHeight)`.  Machine floats
are modelled by exact rationals; unsigned 8-bit samples by natural numbers.
-/

namespace Audmon

/-- Peak extraction: the `maxSample` loop of the Data callback.  Starts
from 0 and replaces the accumulator whenever a strictly larger sample is
seen. -/
def maxSample (pSample : List Nat) : Nat :=
  pSample.foldl (fun m s => if s > m then s else m) 0

/-- Volume scaling: `math.Min(math.Pow(float64(maxSample)/235, 2), 1)`. -/
def volume (m : Nat) : ℚ :=
  min (((m : ℚ) / 235) ^ 2) 1

/-- Display smoothing: the `volumeDisplayed` throttle.  Moves from the
previous displayed volume toward the raw volume by at most 0.05 per call,
snapping when the gap is within 0.05. -/
def smooth (prev raw : ℚ) : ℚ :=
  if raw > prev then
    if raw - prev > 1/20 then prev + 1/20 else raw
  else
    if prev - raw > 1/20 then prev - 1/20 else raw

/-- One audio-callback invocation acting on the `prevVolumeDisplayed`
state: extract the peak, scale it, smooth against the previous displayed
volume. -/
def stepState (prev : ℚ) (buf : List Nat) : ℚ :=
  smooth prev (volume (maxSample buf))

/-- The displayed-volume state after a sequence of capture periods,
starting from the initial `prevVolumeDisplayed = 0`. -/
def runBuffers (bufs : List (List Nat)) : ℚ :=
  bufs.foldl stepState 0

/-- Render adapter: `int(math.Floor((1 - volumeDisplayed) * float64(barHeight)))`. -/
def barFiller (volumeDisplayed : ℚ) (barHeight : ℤ) : ℤ :=
  ⌊(1 - volumeDisplayed) * (barHeight : ℚ)⌋

/-- Helper: the loop body of `maxSample` is the binary maximum. -/
lemma step_eq_max (m s : Nat) : (if s > m then s else m) = max m s := by
  rcases le_or_lt s m with h | h
  · simp [Nat.not_lt.mpr h, Nat.max_eq_left h]
  · simp [h, Nat.max_eq_right (le_of_lt h)]

lemma maxSample_eq_foldl_max (l : List Nat) : maxSample l = l.foldl max 0 := by
  unfold maxSample
  congr 1
  funext m s
  exact step_eq_max m s

lemma le_foldl_max (l : List Nat) (a : Nat) : a ≤ l.foldl max a := by
  induction l generalizing a with
  | nil => exact le_refl a
  | cons x xs ih => exact le_trans (le_max_left a x) (ih (max a x))

lemma mem_le_foldl_max (l : List Nat) : ∀ a x, x ∈ l → x ≤ l.foldl max a := by
  induction l with
  | nil => intro _ _ hx; cases hx
  | cons y ys ih =>
    intro a x hx
    rw [List.foldl_cons]
    rcases List.mem_cons.mp hx with h | h
    · subst h
      exact le_trans (le_max_right a x) (le_foldl_max ys (max a x))
    · exact ih (max a y) x h

lemma foldl_max_mem (l : List Nat) : ∀ a, l.foldl max a = a ∨ l.foldl max a ∈ l := by
  induction l with
  | nil => exact fun _ => Or.inl rfl
  | cons x xs ih =>
    intro a
    rw [List.foldl_cons]
    rcases ih (max a x) with h | h
    · rcases max_cases a x with ⟨ha, _⟩ | ⟨hx, _⟩
      · exact Or.inl (by rw [h, ha])
      · exact Or.inr (by rw [h, hx]; exact List.mem_cons_self x xs)
    · exact Or.inr (List.mem_cons_of_mem x h)

lemma maxSample_mem (l : List Nat) (h : l ≠ []) : maxSample l ∈ l := by
  rw [maxSample_eq_foldl_max]
  rcases foldl_max_mem l 0 with h0 | hm
  · rcases List.exists_mem_of_ne_nil l h with ⟨x, hx⟩
    have hx0 : x = 0 := Nat.le_zero.mp (h0 ▸ mem_le_foldl_max l 0 x hx)
    rw [h0]
    exact hx0 ▸ hx
  · exact hm

lemma maxSample_ge (l : List Nat) (x : Nat) (hx : x ∈ l) : x ≤ maxSample l := by
  rw [maxSample_eq_foldl_max]
  exact mem_le_foldl_max l 0 x hx

lemma volume_nonneg (m : Nat) : 0 ≤ volume m :=
  le_min (sq_nonneg _) zero_le_one

lemma volume_le_one (m : Nat) : volume m ≤ 1 :=
  min_le_right _ _

lemma smooth_between (prev raw : ℚ) :
    min prev raw ≤ smooth prev raw ∧ smooth prev raw ≤ max prev raw := by
  unfold smooth
  rcases le_total prev raw with h | h <;>
    constructor <;> split_ifs <;>
    simp only [min_def, max_def] <;> split_ifs <;> linarith

lemma smooth_self (v : ℚ) : smooth v v = v := by
  unfold smooth
  simp

lemma smooth_snap (prev raw : ℚ) (h : |raw - prev| ≤ 1/20) :
    smooth prev raw = raw := by
  rw [abs_le] at h
  unfold smooth
  split_ifs <;> linarith [h.1, h.2]

lemma smooth_gap (prev raw : ℚ) (h : 1/20 < |raw - prev|) :
    |raw - smooth prev raw| = |raw - prev| - 1/20 := by
  unfold smooth
  rcases lt_trichotomy prev raw with hlt | heq | hgt
  · have habs : |raw - prev| = raw - prev := abs_of_pos (by linarith)
    rw [habs] at h ⊢
    rw [if_pos hlt, if_pos h, abs_of_pos (by linarith)]
    ring
  · exact absurd h (by rw [heq, sub_self, abs_zero]; norm_num)
  · have habs : |raw - prev| = prev - raw := by
      rw [abs_of_neg (by linarith)]; ring
    rw [habs] at h ⊢
    rw [if_neg (not_lt.mpr hgt.le), if_pos h, abs_of_neg (by linarith)]
    ring

lemma smooth_change_bounded (prev raw : ℚ) : |smooth prev raw - prev| ≤ 1/20 := by
  unfold smooth
  rcases le_total prev raw with h | h <;>
    split_ifs <;> rw [abs_le] <;> constructor <;> linarith

lemma smooth_mem_unit (prev raw : ℚ) (hp0 : 0 ≤ prev) (hp1 : prev ≤ 1)
    (hr0 : 0 ≤ raw) (hr1 : raw ≤ 1) :
    0 ≤ smooth prev raw ∧ smooth prev raw ≤ 1 := by
  obtain ⟨hlo, hhi⟩ := smooth_between prev raw
  constructor
  · exact le_trans (le_min hp0 hr0) hlo
  · exact le_trans hhi (max_le hp1 hr1)

lemma smooth_iterate_fixed (raw : ℚ) (n : Nat) :
    (fun v => smooth v raw)^[n] raw = raw := by
  induction n with
  | zero => rfl
  | succ k ih => rw [Function.iterate_succ_apply, smooth_self]; exact ih

lemma smooth_iterate_converges (raw : ℚ) :
    ∀ (n : Nat) (prev : ℚ), |raw - prev| ≤ n * (1/20) →
    (fun v => smooth v raw)^[n] prev = raw := by
  intro n
  induction n with
  | zero =>
    intro prev h
    have hz : raw - prev = 0 := by
      have h0 : |raw - prev| ≤ 0 := by push_cast at h; linarith
      simpa using le_antisymm h0 (abs_nonneg _)
    have hpr : prev = raw := by linarith
    simpa using hpr
  | succ k ih =>
    intro prev h
    rw [Function.iterate_succ_apply]
    by_cases hsnap : |raw - prev| ≤ 1/20
    · rw [smooth_snap prev raw hsnap]
      exact smooth_iterate_fixed raw k
    · push_neg at hsnap
      apply ih
      rw [smooth_gap prev raw hsnap]
      push_cast at h ⊢
      linarith

lemma smooth_symm (p d : ℚ) (hd : 0 ≤ d) :
    smooth p (p + d) - p = p - smooth p (p - d) := by
  unfold smooth
  split_ifs <;> first | ring1 | linarith

lemma stepState_mem_unit (prev : ℚ) (buf : List Nat)
    (hp0 : 0 ≤ prev) (hp1 : prev ≤ 1) :
    0 ≤ stepState prev buf ∧ stepState prev buf ≤ 1 :=
  smooth_mem_unit prev (volume (maxSample buf)) hp0 hp1
    (volume_nonneg _) (volume_le_one _)

lemma foldl_stepState_mem_unit (bufs : List (List Nat)) :
    ∀ prev : ℚ, 0 ≤ prev → prev ≤ 1 →
    0 ≤ bufs.foldl stepState prev ∧ bufs.foldl stepState prev ≤ 1 := by
  induction bufs with
  | nil => intro prev h0 h1; exact ⟨h0, h1⟩
  | cons b bs ih =>
    intro prev h0 h1
    rw [List.foldl_cons]
    obtain ⟨s0, s1⟩ := stepState_mem_unit prev b h0 h1
    exact ih (stepState prev b) s0 s1

/-- Modelled from the spec: the Clip Tracker (spec §4.4) is described as
present only in an extended variant and has no implementation in the
source tree; the reset duration is the fixed duration (e.g. 3 seconds)
for which ClippedRecently persists after a clip event. -/
def resetDuration : Nat := 3

/-- Modelled from the spec: Clip Tracker state — a "clipped recently"
flag plus the deadline of the pending reset timer.  A re-armed timer
overwrites the deadline, which invalidates any previously armed timer. -/
structure ClipTracker where
  clipped : Bool
  deadline : Nat
deriving DecidableEq

/-- Modelled from the spec: initial state is Clear. -/
def initialClipTracker : ClipTracker :=
  { clipped := false, deadline := 0 }

/-- Modelled from the spec: a clip event at time `now` enters/re-enters
ClippedRecently and (re)arms the reset timer for `resetDuration` from now. -/
def clipEvent (now : Nat) (_s : ClipTracker) : ClipTracker :=
  { clipped := true, deadline := now + resetDuration }

/-- Modelled from the spec: the reset timer observed at time `now` clears
the flag only when it has not been superseded, i.e. when the currently
armed deadline has been reached. -/
def resetTimerFire (now : Nat) (s : ClipTracker) : ClipTracker :=
  if s.clipped = true ∧ s.deadline ≤ now then
    { clipped := false, deadline := s.deadline }
  else
    s

/-- One step of the shutdown control flow of `Execute`: the actions the
program performs, in order, as traced from the source. -/
inductive ShutdownAction where
  | logClosedUnsuccessfully : String → ShutdownAction
  | signalDone : ShutdownAction
  | uninitDevice : ShutdownAction
  | stopApp : ShutdownAction
  | exitProcess : Nat → ShutdownAction
deriving DecidableEq

/-- The UI goroutine: `app.Run()` returns; on error the failure is logged
with `log.Printf("closed unsuccessfully: ...")`; in both cases
`done <- syscall.SIGTERM` is sent. -/
def uiRunGoroutine (runErr : Option String) : List ShutdownAction :=
  (match runErr with
    | some msg => [ShutdownAction.logClosedUnsuccessfully msg]
    | none => []) ++ [ShutdownAction.signalDone]

/-- Actions after `<-done` unblocks: `device.Uninit()`, `app.Stop()`,
`os.Exit(0)`. -/
def afterDoneSignal : List ShutdownAction :=
  [ShutdownAction.uninitDevice, ShutdownAction.stopApp,
   ShutdownAction.exitProcess 0]

/-- Full trace when the UI run loop fails with message `msg`. -/
def uiFailureTrace (msg : String) : List ShutdownAction :=
  uiRunGoroutine (some msg) ++ afterDoneSignal

/-- Full trace when a termination signal arrives on the `done` channel. -/
def terminationSignalTrace : List ShutdownAction :=
  ShutdownAction.signalDone :: afterDoneSignal

/-- C1: Raw Volume and Displayed Volume always lie in [0,1]: the scaler
output is in [0,1] for every peak in [0,255], the smoother preserves
membership of the displayed value in [0,1], and every state reachable
from the initial displayed value 0 under a sequence of capture periods
stays in [0,1]. -/
theorem c1_pipeline_unit_invariant (m : Nat) (hm : m ≤ 255)
    (prev raw : ℚ) (hp : 0 ≤ prev ∧ prev ≤ 1) (hr : 0 ≤ raw ∧ raw ≤ 1)
    (bufs : List (List Nat)) :
    (0 ≤ volume m ∧ volume m ≤ 1) ∧
    (0 ≤ smooth prev raw ∧ smooth prev raw ≤ 1) ∧
    (0 ≤ runBuffers bufs ∧ runBuffers bufs ≤ 1) :=
  ⟨⟨volume_nonneg m, volume_le_one m⟩,
   smooth_mem_unit prev raw hp.1 hp.2 hr.1 hr.2,
   foldl_stepState_mem_unit bufs 0 le_rfl zero_le_one⟩

/-- C1 witness: the invariant instantiated at peak 100, previous displayed
volume 1/2, raw volume 3/4, and a concrete two-period buffer sequence. -/
theorem c1_pipeline_unit_invariant_witness :
    (0 ≤ volume 100 ∧ volume 100 ≤ 1) ∧
    (0 ≤ smooth (1/2) (3/4) ∧ smooth (1/2) (3/4) ≤ 1) ∧
    (0 ≤ runBuffers [[10, 250], []] ∧ runBuffers [[10, 250], []] ≤ 1) :=
  c1_pipeline_unit_invariant 100 (by norm_num) (1/2) (3/4)
    ⟨by norm_num, by norm_num⟩ ⟨by norm_num, by norm_num⟩ [[10, 250], []]

/-- C2 counterexample: the render adapter floors rather than rounds, so
for displayed volume 1/8 and bar height 4 it yields floor(3.5) = 3 while
round((1 - 1/8) * 4) = 4. -/
theorem c2_round_counterexample :
    ¬ (barFiller (1/8) 4 = round ((1 - (1/8 : ℚ)) * ((4 : ℤ) : ℚ))) := by
  have hl : barFiller (1/8) 4 = 3 := by
    unfold barFiller
    norm_num
  have hr : round ((1 - (1/8 : ℚ)) * ((4 : ℤ) : ℚ)) = 4 := by
    rw [round_eq]
    norm_num
  rw [hl, hr]
  norm_num

/-- C2 (amended): the filler segment length equals floor((1 - v) * n)
for every displayed volume v in [0,1] and bar length n; in particular,
for bar length 100, v = 0.25 yields 75 and v = 1.0 yields 0. -/
theorem c2_bar_filler_floor (v : ℚ) (hv : 0 ≤ v ∧ v ≤ 1) (n : ℤ) :
    barFiller v n = ⌊(1 - v) * (n : ℚ)⌋ ∧
    barFiller (1/4) 100 = 75 ∧ barFiller 1 100 = 0 := by
  refine ⟨rfl, ?_, ?_⟩
  · unfold barFiller
    norm_num
  · unfold barFiller
    norm_num

/-- C2 witness: the amended statement instantiated at v = 1/2, n = 10. -/
theorem c2_bar_filler_floor_witness :
    barFiller (1/2) 10 = ⌊(1 - (1/2 : ℚ)) * ((10 : ℤ) : ℚ)⌋ ∧
    barFiller (1/4) 100 = 75 ∧ barFiller 1 100 = 0 :=
  c2_bar_filler_floor (1/2) ⟨by norm_num, by norm_num⟩ 10

/-- C3: for every non-empty sample buffer, the peak-extraction loop
returns the maximum element of the buffer; for an all-equal buffer it
returns that value, and for a singleton it returns the element. -/
theorem c3_peak_extractor_max (l : List Nat) (h : l ≠ []) :
    (maxSample l ∈ l ∧ ∀ x ∈ l, x ≤ maxSample l) ∧
    (∀ c : Nat, (∀ x ∈ l, x = c) → maxSample l = c) ∧
    (∀ a : Nat, l = [a] → maxSample l = a) := by
  refine ⟨⟨maxSample_mem l h, fun x hx => maxSample_ge l x hx⟩, ?_, ?_⟩
  · intro c hc
    exact hc (maxSample l) (maxSample_mem l h)
  · intro a ha
    subst ha
    simpa using maxSample_mem [a] h

/-- C3 witness: the peak extractor applied to the buffer [2, 7, 5]. -/
theorem c3_peak_extractor_max_witness :
    (maxSample [2, 7, 5] ∈ [2, 7, 5] ∧ ∀ x ∈ [2, 7, 5], x ≤ maxSample [2, 7, 5]) ∧
    (∀ c : Nat, (∀ x ∈ [2, 7, 5], x = c) → maxSample [2, 7, 5] = c) ∧
    (∀ a : Nat, [2, 7, 5] = [a] → maxSample [2, 7, 5] = a) :=
  c3_peak_extractor_max [2, 7, 5] (by decide)

/-- C4: the volume scaler maps every peak at or above the clip threshold
235 to exactly 1, and maps peak 0 to exactly 0. -/
theorem c4_scaler_edge_cases (m : Nat) (hm : 235 ≤ m) :
    volume m = 1 ∧ volume 0 = 0 := by
  constructor
  · unfold volume
    rw [min_eq_right]
    have h1 : (1 : ℚ) ≤ (m : ℚ) / 235 := by
      rw [le_div_iff (by norm_num : (0:ℚ) < 235)]
      norm_num
      exact_mod_cast hm
    nlinarith
  · unfold volume
    norm_num

/-- C4 witness: the scaler edge cases at peak 240. -/
theorem c4_scaler_edge_cases_witness : volume 240 = 1 ∧ volume 0 = 0 :=
  c4_scaler_edge_cases 240 (by norm_num)

/-- C5: one smoother invocation never overshoots (output stays between the
previous and raw values), changes the displayed value by at most 1/20 in
magnitude, is symmetric for rising and falling volume, snaps exactly to
the raw value when the gap is within the step, and leaves the value
unchanged when previous equals raw. -/
theorem c5_smoother_single_step (prev raw : ℚ)
    (hp : 0 ≤ prev ∧ prev ≤ 1) (hr : 0 ≤ raw ∧ raw ≤ 1) :
    (min prev raw ≤ smooth prev raw ∧ smooth prev raw ≤ max prev raw) ∧
    |smooth prev raw - prev| ≤ 1/20 ∧
    (∀ d : ℚ, 0 ≤ d →
      smooth prev (prev + d) - prev = prev - smooth prev (prev - d)) ∧
    (|raw - prev| ≤ 1/20 → smooth prev raw = raw) ∧
    (prev = raw → smooth prev raw = prev) := by
  refine ⟨smooth_between prev raw, smooth_change_bounded prev raw,
    fun d hd => smooth_symm prev d hd, smooth_snap prev raw, ?_⟩
  intro h
  subst h
  exact smooth_self prev

/-- C5 witness: the smoother step properties at previous 1/2, raw 9/10. -/
theorem c5_smoother_single_step_witness :
    (min (1/2 : ℚ) (9/10) ≤ smooth (1/2) (9/10) ∧
      smooth (1/2) (9/10) ≤ max (1/2 : ℚ) (9/10)) ∧
    |smooth (1/2) (9/10) - 1/2| ≤ 1/20 ∧
    (∀ d : ℚ, 0 ≤ d →
      smooth (1/2) (1/2 + d) - 1/2 = 1/2 - smooth (1/2) (1/2 - d)) ∧
    (|(9/10 : ℚ) - 1/2| ≤ 1/20 → smooth (1/2) (9/10) = 9/10) ∧
    ((1/2 : ℚ) = 9/10 → smooth (1/2) (9/10) = 1/2) :=
  c5_smoother_single_step (1/2) (9/10)
    ⟨by norm_num, by norm_num⟩ ⟨by norm_num, by norm_num⟩

/-- C6: with the raw volume held constant, iterating the smoother reaches
the raw value exactly within 20 steps from any previous value in [0,1];
in particular from previous 0 with raw 1, twenty calls yield exactly 1. -/
theorem c6_smoother_convergence (prev raw : ℚ)
    (hp : 0 ≤ prev ∧ prev ≤ 1) (hr : 0 ≤ raw ∧ raw ≤ 1) :
    (fun v => smooth v raw)^[20] prev = raw ∧
    (fun v => smooth v 1)^[20] (0 : ℚ) = 1 := by
  constructor
  · apply smooth_iterate_converges
    rw [abs_le]
    push_cast
    constructor <;> linarith [hp.1, hp.2, hr.1, hr.2]
  · apply smooth_iterate_converges
    rw [abs_le]
    push_cast
    norm_num

/-- C6 witness: convergence instantiated at previous 0, raw 1/2 (first
conjunct) together with the concrete 0-to-1 scenario (second conjunct). -/
theorem c6_smoother_convergence_witness :
    (fun v => smooth v (1/2 : ℚ))^[20] 0 = 1/2 ∧
    (fun v => smooth v 1)^[20] (0 : ℚ) = 1 :=
  c6_smoother_convergence 0 (1/2)
    ⟨by norm_num, by norm_num⟩ ⟨by norm_num, by norm_num⟩

/-- C7: the volume scaler is monotonically non-decreasing on peaks. -/
theorem c7_scaler_monotone (a b : Nat) (hab : a ≤ b) :
    volume a ≤ volume b := by
  unfold volume
  have hc : (a : ℚ) ≤ (b : ℚ) := by exact_mod_cast hab
  gcongr

/-- C7 witness: monotonicity instantiated at peaks 3 and 7. -/
theorem c7_scaler_monotone_witness : volume 3 ≤ volume 7 :=
  c7_scaler_monotone 3 7 (by norm_num)

/-- C8: from the Clear initial state, a single clip event at time t0 puts
the tracker in ClippedRecently, keeps it there at every time before
t0 + resetDuration, and the reset timer returns it to Clear at any time
from t0 + resetDuration on when no further clips occur. -/
theorem c8_clip_tracker_single_clip (t0 t : Nat) (ht : t0 ≤ t) :
    initialClipTracker.clipped = false ∧
    (clipEvent t0 initialClipTracker).clipped = true ∧
    (t < t0 + resetDuration →
      (resetTimerFire t (clipEvent t0 initialClipTracker)).clipped = true) ∧
    (t0 + resetDuration ≤ t →
      (resetTimerFire t (clipEvent t0 initialClipTracker)).clipped = false) := by
  refine ⟨rfl, rfl, ?_, ?_⟩
  · intro h
    simp [resetTimerFire, clipEvent, not_le.mpr h]
  · intro h
    simp [resetTimerFire, clipEvent, h]

/-- C8 witness: a clip at time 0 is still flagged at time 1 and cleared
at time 5 (reset duration 3). -/
theorem c8_clip_tracker_single_clip_witness :
    (resetTimerFire 1 (clipEvent 0 initialClipTracker)).clipped = true ∧
    (resetTimerFire 5 (clipEvent 0 initialClipTracker)).clipped = false :=
  ⟨(c8_clip_tracker_single_clip 0 1 (by decide)).2.2.1 (by decide),
   (c8_clip_tracker_single_clip 0 5 (by decide)).2.2.2 (by decide)⟩

/-- C9: a UI run-loop failure is logged, then follows exactly the same
shutdown path as a termination signal (signal done, uninit the device,
stop the app), and the process exits with status 0. -/
theorem c9_ui_failure_shutdown (msg : String) :
    uiFailureTrace msg =
      [ShutdownAction.logClosedUnsuccessfully msg, ShutdownAction.signalDone,
       ShutdownAction.uninitDevice, ShutdownAction.stopApp,
       ShutdownAction.exitProcess 0] ∧
    uiFailureTrace msg =
      ShutdownAction.logClosedUnsuccessfully msg :: terminationSignalTrace ∧
    (uiFailureTrace msg).getLast? = some (ShutdownAction.exitProcess 0) :=
  ⟨rfl, rfl, rfl⟩

/-- C10: on an empty sample buffer the callback computation is total:
the peak-extraction loop yields 0 and the resulting raw volume is 0. -/
theorem c10_empty_buffer_total :
    maxSample [] = 0 ∧ volume (maxSample []) = 0 := by
  refine ⟨rfl, ?_⟩
  show volume 0 = 0
  unfold volume
  norm_num

end Audmon
